import Mathlib

/-!
Verification model of the Autoparam driver core
(autoparamDriver.cpp / autoparamDriver.h / autoparamHandler.h).

The C++ code is shallowly embedded: each modelled C++ function becomes a
Lean function over explicit state, driver-supplied collaborators
(`parseDeviceAddress`, `createDeviceVariable`, read/write handlers, the
native asyn subscribe/unsubscribe entry points) become parameters, and
`std::map` containers become association lists iterated in key order.
-/

namespace Autoparam

/-- Mirrors the `asynStatus` enum of the asyn framework. -/
inductive AsynStatus where
  | success
  | timeout
  | overflow
  | error
  | disconnected
  | disabled
deriving DecidableEq

/-- Mirrors `asynParamType` (see `getAsynTypeName` in autoparamDriver.cpp). -/
inductive AsynParamType where
  | undefined
  | int32
  | int64
  | uint32Digital
  | float64
  | octet
  | int8Array
  | int16Array
  | int32Array
  | int64Array
  | float32Array
  | float64Array
  | genericPointer
deriving DecidableEq

/-- C-locale `isspace`, as used by `std::istream` extraction and by the
whitespace-skipping loop in `Driver::drvUserCreate`. -/
def isCSpace (c : Char) : Bool :=
  c = ' ' || c = '\t' || c = '\n' || c = Char.ofNat 11 || c = Char.ofNat 12 || c = '\r'

/-- The reason-string parsing performed at the top of `Driver::drvUserCreate`
(autoparamDriver.cpp lines 125-145): `is >> function` extracts the first
whitespace-delimited token (failing when there is none), the loop skips the
whitespace that follows it, and the remainder of the stream becomes
`arguments`. -/
def parseReason (reason : String) : Option (String × String) :=
  let cs := reason.toList
  let afterLead := cs.dropWhile isCSpace
  let functionTok := afterLead.takeWhile (fun c => !isCSpace c)
  match functionTok with
  | [] => none
  | _ =>
    let rest := afterLead.dropWhile (fun c => !isCSpace c)
    let args := rest.dropWhile isCSpace
    some (String.mk functionTok, String.mk args)

/-- Lookup in an association list; models `std::map::find` / `at` (the maps
used here have unique keys, so first-match lookup coincides with map
lookup). -/
def alookup {K V : Type} [DecidableEq K] : List (K × V) → K → Option V
  | [], _ => none
  | (a, b) :: t, key => if a = key then some b else alookup t key

/-- Insert-or-replace in an association list; models `std::map::operator[]`
assignment for string-keyed maps whose iteration order is irrelevant. -/
def alInsert {K V : Type} [DecidableEq K] : List (K × V) → K → V → List (K × V)
  | [], key, val => [(key, val)]
  | (a, b) :: t, key, val =>
    if a = key then (key, val) :: t else (a, b) :: alInsert t key val

/-- Insert-or-replace for an integer-keyed `std::map`, keeping the list
sorted ascending by key, which is the order `std::map` iteration (and hence
`std::find_if` over `m_params`) observes. -/
def mapInsert {V : Type} : List (Nat × V) → Nat → V → List (Nat × V)
  | [], key, val => [(key, val)]
  | (a, b) :: t, key, val =>
    if key < a then (key, val) :: (a, b) :: t
    else if key = a then (key, val) :: t
    else (a, b) :: mapInsert t key val

/-- Embeds `Autoparam::DeviceVariable`: the reason string, the function
token, the asyn parameter type and index, the driver-parsed `DeviceAddress`
(abstract type `Addr`), and the driver-defined extension produced by
`createDeviceVariable` (abstract type `Payload`).  The public
`DeviceVariable(DeviceVariable *other)` constructor copies all of these
fields, so any slot stored by the driver preserves them. -/
structure DeviceVariable (Addr Payload : Type) where
  reasonString : String
  function : String
  asynParamType : AsynParamType
  asynParamIndex : Nat
  address : Addr
  payload : Payload
deriving DecidableEq

/-- Driver-supplied collaborators of `Driver::drvUserCreate`: the address
parser (`parseDeviceAddress`, taking the function token and the argument
string) and the slot materializer (`createDeviceVariable`, receiving the
fields of the base `DeviceVariable` and returning the driver-defined
extension, or nothing on failure). -/
structure DriverModel (Addr Payload : Type) where
  parseDeviceAddress : String → String → Option Addr
  createDeviceVariable : String → String → AsynParamType → Nat → Addr → Option Payload

/-- The registry state of `Autoparam::Driver` touched by `drvUserCreate`:
`m_params` (ascending by asyn parameter index, as for `std::map<int, ...>`),
`m_functionTypes`, `m_interruptRefcount` (keyed in C++ by the
`DeviceVariable` pointer; keyed here by the variable's unique asyn index),
and the size of the underlying `asynPortDriver` parameter table, which
`createParam` grows by one, handing out the next free index. -/
structure DriverState (Addr Payload : Type) where
  params : List (Nat × DeviceVariable Addr Payload)
  functionTypes : List (String × AsynParamType)
  interruptRefcount : List (Nat × Int)
  paramCount : Nat
deriving DecidableEq

/-- The `std::find_if(m_params.begin(), m_params.end(), cmpDeviceAddress(addr))`
search of `drvUserCreate`: first entry (in key order) whose stored
variable's address compares equal to `addr`. -/
def findByAddress {Addr Payload : Type} [DecidableEq Addr]
    (params : List (Nat × DeviceVariable Addr Payload)) (addr : Addr) :
    Option (Nat × DeviceVariable Addr Payload) :=
  params.find? (fun p => p.2.address = addr)

/-- Embeds `Driver::drvUserCreate` (autoparamDriver.cpp lines 123-200).
Returns the asyn status, the handle written to `pasynUser->reason` (none
when a failure leaves it unassigned), and the updated driver state.
Control flow follows the source: parse the reason; run the driver's
address parser; reuse an existing variable with an equal address; otherwise
consult `m_functionTypes`, call `createParam` (which allocates the next
parameter index unconditionally), ask the driver to materialize the
variable, and only on success store it and zero its interrupt refcount. -/
def drvUserCreate {Addr Payload : Type} [DecidableEq Addr]
    (d : DriverModel Addr Payload) (st : DriverState Addr Payload)
    (reason : String) : AsynStatus × Option Nat × DriverState Addr Payload :=
  match parseReason reason with
  | none => (AsynStatus.error, none, st)
  | some (function, arguments) =>
    match d.parseDeviceAddress function arguments with
    | none => (AsynStatus.error, none, st)
    | some addr =>
      match findByAddress st.params addr with
      | some (idx, _) => (AsynStatus.success, some idx, st)
      | none =>
        match alookup st.functionTypes function with
        | none => (AsynStatus.error, none, st)
        | some ptype =>
          let idx := st.paramCount
          let st1 := { st with paramCount := st.paramCount + 1 }
          match d.createDeviceVariable reason function ptype idx addr with
          | none => (AsynStatus.error, none, st1)
          | some payload =>
            let var : DeviceVariable Addr Payload :=
              ⟨reason, function, ptype, idx, addr, payload⟩
            (AsynStatus.success, some idx,
              { st1 with
                params := mapInsert st1.params idx var,
                interruptRefcount := alInsert st1.interruptRefcount idx 0 })

/-- Indices handed out by `createParam` are fresh: every key already in
`m_params` is below the parameter-table size. -/
def ParamsBounded {Addr Payload : Type} (st : DriverState Addr Payload) : Prop :=
  ∀ p ∈ st.params, p.1 < st.paramCount

theorem findByAddress_mapInsert {Addr Payload : Type} [DecidableEq Addr]
    (l : List (Nat × DeviceVariable Addr Payload)) (k : Nat)
    (v : DeviceVariable Addr Payload) (addr : Addr)
    (hnone : findByAddress l addr = none) (hv : v.address = addr) :
    findByAddress (mapInsert l k v) addr = some (k, v) := by
  induction l with
  | nil =>
    simp [findByAddress, mapInsert, List.find?, hv]
  | cons hd tl ih =>
    simp only [findByAddress, List.find?] at hnone
    by_cases hhd : hd.2.address = addr
    · simp [hhd] at hnone
    · simp only [decide_eq_true_eq, hhd, decide_False] at hnone
      have htl : findByAddress tl addr = none := by
        simpa [findByAddress, hhd] using hnone
      simp only [mapInsert]
      by_cases h1 : k < hd.1
      · simp [h1, findByAddress, List.find?, hv]
      · by_cases h2 : k = hd.1
        · simp [h1, h2, findByAddress, List.find?, hv]
        · have := ih htl
          simp only [h1, h2, if_false]
          simpa [findByAddress, List.find?, hhd] using this

theorem length_mapInsert_le {V : Type} (l : List (Nat × V)) (k : Nat) (v : V) :
    (mapInsert l k v).length ≤ l.length + 1 := by
  induction l with
  | nil => simp [mapInsert]
  | cons hd tl ih =>
    simp only [mapInsert]
    by_cases h1 : k < hd.1
    · simp [h1]
    · by_cases h2 : k = hd.1
      · simp [h1, h2]
      · simp only [h1, h2, if_false, List.length_cons]
        omega

theorem length_mapInsert_fresh {V : Type} (l : List (Nat × V)) (k : Nat) (v : V)
    (hfresh : ∀ p ∈ l, p.1 ≠ k) :
    (mapInsert l k v).length = l.length + 1 := by
  induction l with
  | nil => simp [mapInsert]
  | cons hd tl ih =>
    have hhd : hd.1 ≠ k := hfresh hd (by simp)
    simp only [mapInsert]
    by_cases h1 : k < hd.1
    · simp [h1]
    · have h2 : ¬ k = hd.1 := fun he => hhd he.symm
      simp only [h1, h2, if_false, List.length_cons]
      have := ih (fun p hp => hfresh p (by simp [hp]))
      omega

/-- C1: two raw identifier strings whose driver-parsed device addresses
compare equal resolve through `drvUserCreate` to the same handle; the
second resolution leaves the registry unchanged, the pair of resolutions
adds at most one slot, and when no slot with that address pre-existed it
adds exactly one. -/
theorem drvUserCreate_idempotent {Addr Payload : Type} [DecidableEq Addr]
    (d : DriverModel Addr Payload) (st st' : DriverState Addr Payload)
    (a b fa aa fb ab : String) (addr : Addr) (h : Nat)
    (hpa : parseReason a = some (fa, aa))
    (hda : d.parseDeviceAddress fa aa = some addr)
    (hpb : parseReason b = some (fb, ab))
    (hdb : d.parseDeviceAddress fb ab = some addr)
    (hbound : ParamsBounded st)
    (hfirst : drvUserCreate d st a = (AsynStatus.success, some h, st')) :
    drvUserCreate d st' b = (AsynStatus.success, some h, st') ∧
    st'.params.length ≤ st.params.length + 1 ∧
    (findByAddress st.params addr = none →
      st'.params.length = st.params.length + 1) := by
  simp only [drvUserCreate, hpa, hda] at hfirst
  cases hfind : findByAddress st.params addr with
  | some pr =>
    rw [hfind] at hfirst
    obtain ⟨idx, var⟩ := pr
    simp only [Prod.mk.injEq, Option.some.injEq] at hfirst
    obtain ⟨-, hidx, hst⟩ := hfirst
    subst hidx
    subst hst
    refine ⟨?_, by omega, fun hc => Option.noConfusion hc⟩
    simp only [drvUserCreate, hpb, hdb, hfind]
  | none =>
    simp only [hfind] at hfirst
    cases hft : alookup st.functionTypes fa with
    | none => simp [hft] at hfirst
    | some ptype =>
      simp only [hft] at hfirst
      cases hmat : d.createDeviceVariable a fa ptype st.paramCount addr with
      | none =>
        simp [hmat] at hfirst
      | some payload =>
        simp only [hmat] at hfirst
        simp only [Prod.mk.injEq, Option.some.injEq] at hfirst
        obtain ⟨-, hidx, hst⟩ := hfirst
        subst hidx
        have hstparams : st'.params =
            mapInsert st.params st.paramCount
              ⟨a, fa, ptype, st.paramCount, addr, payload⟩ := by
          rw [← hst]
        have hfind' : findByAddress st'.params addr =
            some (st.paramCount, ⟨a, fa, ptype, st.paramCount, addr, payload⟩) := by
          rw [hstparams]
          exact findByAddress_mapInsert st.params st.paramCount _ addr hfind rfl
        have hfreshlen : st'.params.length = st.params.length + 1 := by
          rw [hstparams]
          exact length_mapInsert_fresh st.params st.paramCount _
            (fun p hp => by
              have := hbound p hp
              omega)
        refine ⟨?_, by omega, fun _ => hfreshlen⟩
        simp only [drvUserCreate, hpb, hdb, hfind']

/-- C5 (amended): when the driver's slot materializer returns no slot,
`drvUserCreate` fails and stores nothing in the registry, but the
framework-level parameter allocated by `createParam` earlier in the call is
not rolled back: the parameter table keeps the extra entry. -/
theorem drvUserCreate_materialize_failure {Addr Payload : Type} [DecidableEq Addr]
    (d : DriverModel Addr Payload) (st : DriverState Addr Payload)
    (r f args : String) (addr : Addr) (t : AsynParamType)
    (hp : parseReason r = some (f, args))
    (hd : d.parseDeviceAddress f args = some addr)
    (hfind : findByAddress st.params addr = none)
    (hft : alookup st.functionTypes f = some t)
    (hmat : d.createDeviceVariable r f t st.paramCount addr = none) :
    drvUserCreate d st r =
      (AsynStatus.error, none, { st with paramCount := st.paramCount + 1 }) := by
  simp only [drvUserCreate, hp, hd, hfind, hft, hmat]

/-- Concrete driver used by witnesses: parses every address to `0` and
always materializes. -/
def dW : DriverModel Nat Unit :=
  ⟨fun _ _ => some 0, fun _ _ _ _ _ => some ()⟩

/-- Concrete driver whose materializer always fails. -/
def dBadW : DriverModel Nat Unit :=
  ⟨fun _ _ => some 0, fun _ _ _ _ _ => none⟩

/-- Empty registry with one registered function type. -/
def stW0 : DriverState Nat Unit :=
  ⟨[], [("FOO", AsynParamType.int32)], [], 0⟩

/-- Registry state after resolving the channel string of the C1 witness. -/
def stW1 : DriverState Nat Unit :=
  ⟨[(0, ⟨"FOO  1", "FOO", AsynParamType.int32, 0, 0, ()⟩)],
   [("FOO", AsynParamType.int32)], [(0, 0)], 1⟩

/-- Witness for C1 at the concrete strings from the spec's normalization
example. -/
theorem drvUserCreate_idempotent_witness :
    drvUserCreate dW stW1 "FOO 1" = (AsynStatus.success, some 0, stW1) ∧
    stW1.params.length = stW0.params.length + 1 :=
  have hmain :=
    drvUserCreate_idempotent dW stW0 stW1 "FOO  1" "FOO 1" "FOO" "1" "FOO" "1" 0 0
      (by decide) rfl (by decide) rfl
      (fun p hp => by simp [stW0] at hp) (by decide)
  ⟨hmain.1, hmain.2.2 (by decide)⟩

/-- Counterexample for C5 as stated: with a failing materializer the
resolve call fails and no slot is stored, yet the parameter count has
grown — the handle allocation performed by `createParam` is not rolled
back. -/
theorem drvUserCreate_no_rollback_counterexample :
    (drvUserCreate dBadW stW0 "FOO 1").1 = AsynStatus.error ∧
    (drvUserCreate dBadW stW0 "FOO 1").2.2.params = stW0.params ∧
    (drvUserCreate dBadW stW0 "FOO 1").2.2.paramCount ≠ stW0.paramCount := by
  decide

/-- Witness for the amended C5 theorem at a concrete failing materializer. -/
theorem drvUserCreate_materialize_failure_witness :
    drvUserCreate dBadW stW0 "FOO 1" =
      (AsynStatus.error, none, { stW0 with paramCount := stW0.paramCount + 1 }) :=
  drvUserCreate_materialize_failure dBadW stW0 "FOO 1" "FOO" "1" 0
    AsynParamType.int32 (by decide) rfl (by decide) (by decide) rfl

theorem alookup_alInsert_self {K V : Type} [DecidableEq K]
    (l : List (K × V)) (k : K) (v : V) :
    alookup (alInsert l k v) k = some v := by
  induction l with
  | nil => simp [alInsert, alookup]
  | cons hd tl ih =>
    by_cases h : hd.1 = k
    · simp [alInsert, alookup, h]
    · simp [alInsert, alookup, h, ih]

theorem alookup_alInsert_ne {K V : Type} [DecidableEq K]
    (l : List (K × V)) (k k' : K) (v : V) (hne : k ≠ k') :
    alookup (alInsert l k v) k' = alookup l k' := by
  induction l with
  | nil => simp [alInsert, alookup, hne]
  | cons hd tl ih =>
    by_cases h : hd.1 = k
    · simp [alInsert, alookup, h, hne]
    · by_cases h' : hd.1 = k'
      · simp [alInsert, alookup, h, h', Ne.symm hne]
      · simp [alInsert, alookup, h, h', ih]

theorem alInsert_alInsert_self {K V : Type} [DecidableEq K]
    (l : List (K × V)) (k : K) (v : V) :
    alInsert (alInsert l k v) k v = alInsert l k v := by
  induction l with
  | nil => simp [alInsert]
  | cons hd tl ih =>
    by_cases h : hd.1 = k
    · simp [alInsert, h]
    · simp [alInsert, h, ih]

/-- Embeds a handler-table entry `Handlers<T>` (autoparamHandler.h): the
read handler, write handler and interrupt registrar, each possibly absent
(`NULL`).  The function pointers themselves are opaque; they are modelled
by identifiers. -/
structure HandlersEntry where
  readHandler : Option Nat
  writeHandler : Option Nat
  intrRegistrar : Option Nat
deriving DecidableEq

/-- Registration state of the driver: `m_functionTypes` and the eleven
per-type handler maps `getHandlerMap<T>()`.  The per-type maps are
disjoint, so they are modelled as one association list keyed by the pair
(declared type, function name). -/
structure RegistrationState where
  functionTypes : List (String × AsynParamType)
  handlerMaps : List ((AsynParamType × String) × HandlersEntry)
deriving DecidableEq

/-- Embeds `Driver::registerHandlers<T>` (autoparamDriver.cpp lines
555-575): a function name already mapped to a different declared type is
rejected (logged, no-op); otherwise all three handler fields of the
entry are assigned and `m_functionTypes[function]` is set to the type. -/
def registerHandlers (t : AsynParamType) (function : String)
    (reader writer intrRegistrar : Option Nat) (st : RegistrationState) :
    RegistrationState :=
  match alookup st.functionTypes function with
  | some t' =>
    if t' ≠ t then st
    else
      { functionTypes := alInsert st.functionTypes function t,
        handlerMaps := alInsert st.handlerMaps (t, function)
          ⟨reader, writer, intrRegistrar⟩ }
  | none =>
    { functionTypes := alInsert st.functionTypes function t,
      handlerMaps := alInsert st.handlerMaps (t, function)
        ⟨reader, writer, intrRegistrar⟩ }

/-- C6: a registration attempt for a function name already registered
under a different declared type is a no-op; repeated identical
registrations are idempotent; and once a function name maps to a declared
type, no later registration call (for any type, name or handlers) changes
that mapping. -/
theorem registerHandlers_exclusive
    (st : RegistrationState) (t t' t2 : AsynParamType)
    (f f2 : String) (r w ir r2 w2 ir2 : Option Nat)
    (hreg : alookup st.functionTypes f = some t') :
    (t' ≠ t → registerHandlers t f r w ir st = st) ∧
    registerHandlers t f r w ir (registerHandlers t f r w ir st) =
      registerHandlers t f r w ir st ∧
    alookup (registerHandlers t2 f2 r2 w2 ir2 st).functionTypes f = some t' := by
  refine ⟨fun hne => by simp [registerHandlers, hreg, hne], ?_, ?_⟩
  · by_cases hsame : t' = t
    · subst hsame
      have h1 : registerHandlers t' f r w ir st =
          ⟨alInsert st.functionTypes f t',
           alInsert st.handlerMaps (t', f) ⟨r, w, ir⟩⟩ := by
        simp [registerHandlers, hreg]
      rw [h1]
      simp [registerHandlers, alookup_alInsert_self, alInsert_alInsert_self]
    · simp [registerHandlers, hreg, hsame]
  · by_cases hf : f2 = f
    · subst hf
      rw [registerHandlers, hreg]
      by_cases hne : t' ≠ t2
      · simp [hne, hreg]
      · simp only [hne, if_false]
        simp only [not_not] at hne
        subst hne
        simp [alookup_alInsert_self]
    · rw [registerHandlers]
      cases h2 : alookup st.functionTypes f2 with
      | some u =>
        by_cases hne : u ≠ t2
        · simp [hne, hreg]
        · simpa [hne, alookup_alInsert_ne st.functionTypes f2 f _ hf]
            using hreg
      | none =>
        simpa [alookup_alInsert_ne st.functionTypes f2 f _ hf] using hreg

/-- Witness for C6 at a concrete conflicting registration: `F` registered
for int32, then attempted for float64. -/
theorem registerHandlers_exclusive_witness :
    (registerHandlers AsynParamType.float64 "F" (some 1) none none
      ⟨[("F", AsynParamType.int32)], [((AsynParamType.int32, "F"), ⟨some 0, none, none⟩)]⟩ =
      ⟨[("F", AsynParamType.int32)], [((AsynParamType.int32, "F"), ⟨some 0, none, none⟩)]⟩) ∧
    alookup (registerHandlers AsynParamType.float64 "F" (some 1) none none
      ⟨[("F", AsynParamType.int32)],
       [((AsynParamType.int32, "F"), ⟨some 0, none, none⟩)]⟩).functionTypes "F" =
      some AsynParamType.int32 :=
  have hmain := registerHandlers_exclusive
    ⟨[("F", AsynParamType.int32)], [((AsynParamType.int32, "F"), ⟨some 0, none, none⟩)]⟩
    AsynParamType.float64 AsynParamType.int32 AsynParamType.float64
    "F" "F" (some 1) none none (some 1) none none (by decide)
  ⟨hmain.1 (by decide), hmain.2.2⟩

/-- Observable events of one `registerInterrupt` / `cancelInterrupt` call,
in the order the source emits them: the forwarded call to the framework's
original (native) registrar, and the invocation of the driver's interrupt
registrar callback (`registrar(*var, cancel)`, where `cancel = false`
means activation and `cancel = true` deactivation). -/
inductive IntrEvent where
  | nativeCall (ok : Bool)
  | registrarCall (cancel : Bool)
deriving DecidableEq

/-- Keeps only the subscription-callback invocations of an event list. -/
def callbackEvents (l : List IntrEvent) : List IntrEvent :=
  l.filter (fun e =>
    match e with
    | IntrEvent.registrarCall _ => true
    | _ => false)

/-- The handler-map entry consulted by `checkHandlersVerbosely` and the
registrar lookup; only the presence of the entry and of its
`intrRegistrar` field matter here. -/
structure IntrEntry where
  hasRegistrar : Bool
deriving DecidableEq

/-- Embeds `Driver::registerInterrupt<T>` (autoparamDriver.cpp lines
704-749).  Inputs: the handler-map entry for the variable's function (none
when `getHandlerMap<T>()` has no entry, making `checkHandlersVerbosely`
fail), the status returned by the framework's original registrar, the
status the driver's interrupt registrar callback would return, and the
current `m_interruptRefcount` value.  Output: returned status, new
refcount, events in emission order.  The native registrar is invoked
first; on its failure the refcount is untouched and no callback runs.
After a successful native call the refcount is incremented, and only on
the transition to 1 is the (present) registrar invoked with
`cancel = false`. -/
def registerInterrupt (entry : Option IntrEntry)
    (nativeStatus registrarStatus : AsynStatus) (rc : Int) :
    AsynStatus × Int × List IntrEvent :=
  let ev0 := [IntrEvent.nativeCall (nativeStatus = AsynStatus.success)]
  if nativeStatus ≠ AsynStatus.success then (nativeStatus, rc, ev0)
  else
    let rc1 := rc + 1
    if rc1 = 1 then
      match entry with
      | none => (AsynStatus.error, rc1, ev0)
      | some e =>
        if e.hasRegistrar then
          let evs := ev0 ++ [IntrEvent.registrarCall false]
          if registrarStatus ≠ AsynStatus.success then (registrarStatus, rc1, evs)
          else (AsynStatus.success, rc1, evs)
        else (AsynStatus.success, rc1, ev0)
    else (AsynStatus.success, rc1, ev0)

/-- Embeds `Driver::cancelInterrupt<T>` (autoparamDriver.cpp lines
751-802); same conventions as `registerInterrupt`.  The native cancel is
invoked first; on success the refcount is decremented; a negative result
is a logged logic error, clamped to 0 with `asynError` returned; on the
transition to 0 the (present) registrar is invoked with `cancel = true`. -/
def cancelInterrupt (entry : Option IntrEntry)
    (nativeStatus registrarStatus : AsynStatus) (rc : Int) :
    AsynStatus × Int × List IntrEvent :=
  let ev0 := [IntrEvent.nativeCall (nativeStatus = AsynStatus.success)]
  if nativeStatus ≠ AsynStatus.success then (nativeStatus, rc, ev0)
  else
    let rc1 := rc - 1
    if rc1 < 0 then (AsynStatus.error, 0, ev0)
    else if rc1 = 0 then
      match entry with
      | none => (AsynStatus.error, rc1, ev0)
      | some e =>
        if e.hasRegistrar then
          let evs := ev0 ++ [IntrEvent.registrarCall true]
          if registrarStatus ≠ AsynStatus.success then (registrarStatus, rc1, evs)
          else (AsynStatus.success, rc1, evs)
        else (AsynStatus.success, rc1, ev0)
    else (AsynStatus.success, rc1, ev0)

/-- C2: with the channel's handler entry present and carrying a
subscription callback, and the native call succeeding, `registerInterrupt`
invokes the callback (with activate) exactly when the refcount goes 0→1,
and `cancelInterrupt` invokes it (with deactivate) exactly when it goes
1→0; every other transition invokes no callback. -/
theorem interrupt_callback_transitions (e : IntrEntry) (rs : AsynStatus)
    (rc : Int) (hreg : e.hasRegistrar = true) :
    callbackEvents
        (registerInterrupt (some e) AsynStatus.success rs rc).2.2 =
      (if rc = 0 then [IntrEvent.registrarCall false] else []) ∧
    callbackEvents
        (cancelInterrupt (some e) AsynStatus.success rs rc).2.2 =
      (if rc = 1 then [IntrEvent.registrarCall true] else []) := by
  constructor
  · by_cases h0 : rc = 0
    · subst h0
      by_cases hrs : rs = AsynStatus.success <;>
        simp [registerInterrupt, hreg, hrs, callbackEvents]
    · have h1 : ¬ rc + 1 = 1 := by omega
      simp [registerInterrupt, h1, h0, callbackEvents]
  · by_cases h1 : rc = 1
    · subst h1
      by_cases hrs : rs = AsynStatus.success <;>
        simp [cancelInterrupt, hreg, hrs, callbackEvents]
    · by_cases hneg : rc - 1 < 0
      · simp [cancelInterrupt, hneg, h1, callbackEvents]
      · have h2 : ¬ rc - 1 = 0 := by omega
        simp [cancelInterrupt, hneg, h2, h1, callbackEvents]

/-- Witness for C2: subscribing twice then unsubscribing twice from
refcount 0 invokes the callback with activate exactly on the first
subscribe and with deactivate exactly on the last unsubscribe, with the
two middle operations silent. -/
theorem interrupt_callback_transitions_witness :
    callbackEvents (registerInterrupt (some ⟨true⟩) AsynStatus.success
        AsynStatus.success 0).2.2 = [IntrEvent.registrarCall false] ∧
    callbackEvents (registerInterrupt (some ⟨true⟩) AsynStatus.success
        AsynStatus.success 1).2.2 = [] ∧
    callbackEvents (cancelInterrupt (some ⟨true⟩) AsynStatus.success
        AsynStatus.success 2).2.2 = [] ∧
    callbackEvents (cancelInterrupt (some ⟨true⟩) AsynStatus.success
        AsynStatus.success 1).2.2 = [IntrEvent.registrarCall true] :=
  ⟨(interrupt_callback_transitions ⟨true⟩ AsynStatus.success 0 rfl).1,
   (interrupt_callback_transitions ⟨true⟩ AsynStatus.success 1 rfl).1,
   (interrupt_callback_transitions ⟨true⟩ AsynStatus.success 2 rfl).2,
   (interrupt_callback_transitions ⟨true⟩ AsynStatus.success 1 rfl).2⟩

/-- C7: both interposed entry points call the framework's native
subscribe/unsubscribe first — the native call is the first emitted event
of every invocation — and when the native call fails, its status is
returned with the refcount untouched and no subscription callback
invoked. -/
theorem interrupt_native_first (entry : Option IntrEntry)
    (ns rs : AsynStatus) (rc : Int) (hfail : ns ≠ AsynStatus.success) :
    (∀ entry' ns' rs' rc',
      (∃ rest, (registerInterrupt entry' ns' rs' rc').2.2 =
          IntrEvent.nativeCall (ns' = AsynStatus.success) :: rest) ∧
      (∃ rest, (cancelInterrupt entry' ns' rs' rc').2.2 =
          IntrEvent.nativeCall (ns' = AsynStatus.success) :: rest)) ∧
    registerInterrupt entry ns rs rc = (ns, rc, [IntrEvent.nativeCall false]) ∧
    cancelInterrupt entry ns rs rc = (ns, rc, [IntrEvent.nativeCall false]) := by
  refine ⟨fun entry' ns' rs' rc' => ⟨?_, ?_⟩, ?_, ?_⟩
  · rw [registerInterrupt]
    by_cases hns : ns' = AsynStatus.success
    · simp only [hns, ne_eq, not_true_eq_false, if_false]
      by_cases h1 : rc' + 1 = 1
      · cases entry' with
        | none => exact ⟨[], by simp [h1]⟩
        | some e =>
          by_cases hr : e.hasRegistrar <;> by_cases hrs : rs' = AsynStatus.success <;>
            simp [h1, hr, hrs]
      · exact ⟨[], by simp [h1]⟩
    · simp [hns]
  · rw [cancelInterrupt]
    by_cases hns : ns' = AsynStatus.success
    · simp only [hns, ne_eq, not_true_eq_false, if_false]
      by_cases hneg : rc' - 1 < 0
      · exact ⟨[], by simp [hneg]⟩
      · by_cases h1 : rc' - 1 = 0
        · cases entry' with
          | none => exact ⟨[], by simp [hneg, h1]⟩
          | some e =>
            by_cases hr : e.hasRegistrar <;> by_cases hrs : rs' = AsynStatus.success <;>
              simp [hneg, h1, hr, hrs]
        · exact ⟨[], by simp [hneg, h1]⟩
    · simp [hns]
  · simp [registerInterrupt, hfail]
  · simp [cancelInterrupt, hfail]

/-- Witness for C7 at a concrete failing native call. -/
theorem interrupt_native_first_witness :
    registerInterrupt (some ⟨true⟩) AsynStatus.error AsynStatus.success 1 =
      (AsynStatus.error, 1, [IntrEvent.nativeCall false]) ∧
    cancelInterrupt (some ⟨true⟩) AsynStatus.error AsynStatus.success 1 =
      (AsynStatus.error, 1, [IntrEvent.nativeCall false]) :=
  have hmain := interrupt_native_first (some ⟨true⟩) AsynStatus.error
    AsynStatus.success 1 (by decide)
  ⟨hmain.2.1, hmain.2.2⟩

/-- One subscribe or unsubscribe step, with its environment (handler
entry, native status, registrar status). -/
inductive IntrOp where
  | reg (entry : Option IntrEntry) (ns rs : AsynStatus)
  | canc (entry : Option IntrEntry) (ns rs : AsynStatus)

/-- Folds a sequence of subscribe/unsubscribe operations over the
refcount. -/
def runIntr (rc : Int) : List IntrOp → Int
  | [] => rc
  | IntrOp.reg entry ns rs :: rest =>
    runIntr (registerInterrupt entry ns rs rc).2.1 rest
  | IntrOp.canc entry ns rs :: rest =>
    runIntr (cancelInterrupt entry ns rs rc).2.1 rest

theorem registerInterrupt_rc_nonneg (entry : Option IntrEntry)
    (ns rs : AsynStatus) (rc : Int) (h : 0 ≤ rc) :
    0 ≤ (registerInterrupt entry ns rs rc).2.1 := by
  rw [registerInterrupt]
  by_cases hns : ns = AsynStatus.success
  · simp only [hns, ne_eq, not_true_eq_false, if_false]
    by_cases h1 : rc + 1 = 1
    · cases entry with
      | none => simp [h1]
      | some e =>
        by_cases hr : e.hasRegistrar <;> by_cases hrs : rs = AsynStatus.success <;>
          simp [h1, hr, hrs]
    · simp [h1]
      omega
  · simp [hns, h]

theorem cancelInterrupt_rc_nonneg (entry : Option IntrEntry)
    (ns rs : AsynStatus) (rc : Int) (h : 0 ≤ rc) :
    0 ≤ (cancelInterrupt entry ns rs rc).2.1 := by
  rw [cancelInterrupt]
  by_cases hns : ns = AsynStatus.success
  · simp only [hns, ne_eq, not_true_eq_false, if_false]
    by_cases hneg : rc - 1 < 0
    · simp [hneg]
    · by_cases h1 : rc - 1 = 0
      · cases entry with
        | none => simp [hneg, h1]
        | some e =>
          by_cases hr : e.hasRegistrar <;> by_cases hrs : rs = AsynStatus.success <;>
            simp [hneg, h1, hr, hrs]
      · simp [hneg, h1]
        omega
  · simp [hns, h]

/-- C8: an unsubscribe whose decrement would drive the refcount negative
clamps it to 0 and reports failure, and after any sequence of
subscribe/unsubscribe operations starting from the initial refcount 0 the
refcount is never negative. -/
theorem cancelInterrupt_underflow_clamped (entry : Option IntrEntry)
    (rs : AsynStatus) :
    cancelInterrupt entry AsynStatus.success rs 0 =
      (AsynStatus.error, 0, [IntrEvent.nativeCall true]) ∧
    ∀ ops : List IntrOp, 0 ≤ runIntr 0 ops := by
  constructor
  · simp [cancelInterrupt]
  · have hgen : ∀ (ops : List IntrOp) (rc : Int), 0 ≤ rc → 0 ≤ runIntr rc ops := by
      intro ops
      induction ops with
      | nil => intro rc h; simpa [runIntr] using h
      | cons op rest ih =>
        intro rc h
        cases op with
        | reg entry' ns rs' =>
          exact ih _ (registerInterrupt_rc_nonneg entry' ns rs' rc h)
        | canc entry' ns rs' =>
          exact ih _ (cancelInterrupt_rc_nonneg entry' ns rs' rc h)
    exact fun ops => hgen ops 0 le_rfl

/-- Mirrors `ProcessInterrupts::ValueType` (autoparamHandler.h): the
tri-state propagation directive carried by every handler result. -/
inductive ProcessInterruptsValue where
  | OFF
  | ON
  | DEFAULT
deriving DecidableEq

/-- Embeds `Autoparam::ResultBase`: operation status, alarm overrides and
the propagation directive.  The alarm codes are the raw EPICS integers
(`epicsAlarmNone = 0`, `epicsAlarmSoft = 16`, `epicsSevNone = 0`,
`epicsSevInvalid = 3`). -/
structure ResultBase where
  status : AsynStatus
  alarmStatus : Nat
  alarmSeverity : Nat
  processInterrupts : ProcessInterruptsValue
deriving DecidableEq

/-- Embeds the scalar read result `Result<T>` (status, alarms, directive
and the value read). -/
structure ScalarResult (T : Type) extends ResultBase where
  value : T
deriving DecidableEq

/-- The only `DriverOpts` field the dispatch code reads
(`opts.autoInterrupts`, autoparamDriver.cpp line 414). -/
structure DriverOptsModel where
  autoInterrupts : Bool
deriving DecidableEq

/-- Embeds the `WriteResult` overload
`Driver::shouldProcessInterrupts(WriteResult const &)` (autoparamDriver.cpp
lines 410-415): success, and the directive explicitly on or left at the
default while the driver-wide `autoInterrupts` option is enabled. -/
def shouldProcessInterruptsWrite (opts : DriverOptsModel) (result : ResultBase) :
    Bool :=
  decide (result.status = AsynStatus.success) &&
    (decide (result.processInterrupts = ProcessInterruptsValue.ON) ||
      (decide (result.processInterrupts = ProcessInterruptsValue.DEFAULT) &&
        opts.autoInterrupts))

/-- Embeds the `ResultBase` overload
`Driver::shouldProcessInterrupts(ResultBase const &)` (autoparamDriver.cpp
lines 417-420), the one selected for scalar and array read results:
success and the directive explicitly on; `autoInterrupts` plays no part. -/
def shouldProcessInterruptsBase (result : ResultBase) : Bool :=
  decide (result.status = AsynStatus.success) &&
    decide (result.processInterrupts = ProcessInterruptsValue.ON)

/-- The framework-visible per-parameter state the dispatch code touches:
the `pasynUser` alarm fields and parameter alarm fields written by
`handleResultStatus`, the cached parameter value written by
`setParamDispatch`, and a count of `callParamCallbacks` invocations
(deliveries to interrupt subscribers). -/
structure ScalarIoState (T : Type) where
  userAlarmStatus : Nat
  userAlarmSeverity : Nat
  paramAlarmStatus : Nat
  paramAlarmSeverity : Nat
  paramValue : Option T
  callbacksFired : Nat
deriving DecidableEq

/-- Embeds `Driver::handleResultStatus` (autoparamDriver.cpp lines
202-207): copies the result's alarm override into the `pasynUser` fields
and the parameter's alarm fields. -/
def handleResultStatus {T : Type} (result : ResultBase) (st : ScalarIoState T) :
    ScalarIoState T :=
  { st with
    userAlarmStatus := result.alarmStatus,
    userAlarmSeverity := result.alarmSeverity,
    paramAlarmStatus := result.alarmStatus,
    paramAlarmSeverity := result.alarmSeverity }

/-- Embeds `Driver::readScalar<T>` (autoparamDriver.cpp lines 852-865).
The registered handler is driver-supplied; `result` is the value it
returns for this invocation.  The read value is passed out regardless of
status; the cached parameter value is written and `callParamCallbacks` run
only when `shouldProcessInterrupts` (the `ResultBase` overload) holds. -/
def readScalar (T : Type) (result : ScalarResult T) (st : ScalarIoState T) :
    AsynStatus × T × ScalarIoState T :=
  let st1 := handleResultStatus result.toResultBase st
  if shouldProcessInterruptsBase result.toResultBase then
    (result.status, result.value,
      { st1 with
        paramValue := some result.value,
        callbacksFired := st1.callbacksFired + 1 })
  else (result.status, result.value, st1)

/-- C3 (amended): a scalar read updates the cached parameter value and
delivers to subscribers exactly when the handler reports success with the
directive explicitly on; the `DEFAULT` directive never propagates a scalar
read, whatever the driver-wide `autoInterrupts` option says, and a
non-success status updates and propagates nothing. -/
theorem readScalar_propagates_iff (T : Type) [DecidableEq T]
    (result : ScalarResult T) (st : ScalarIoState T) :
    ((readScalar T result st).2.2.callbacksFired ≠ st.callbacksFired ↔
      (result.status = AsynStatus.success ∧
        result.processInterrupts = ProcessInterruptsValue.ON)) ∧
    ((result.status = AsynStatus.success ∧
        result.processInterrupts = ProcessInterruptsValue.ON) →
      (readScalar T result st).2.2.paramValue = some result.value) ∧
    (¬(result.status = AsynStatus.success ∧
        result.processInterrupts = ProcessInterruptsValue.ON) →
      (readScalar T result st).2.2.paramValue = st.paramValue ∧
      (readScalar T result st).2.2.callbacksFired = st.callbacksFired) ∧
    (readScalar T result st).1 = result.status := by
  by_cases hc : result.status = AsynStatus.success ∧
      result.processInterrupts = ProcessInterruptsValue.ON
  · have hb : shouldProcessInterruptsBase result.toResultBase = true := by
      simp [shouldProcessInterruptsBase, hc.1, hc.2]
    refine ⟨?_, fun _ => ?_, fun hn => absurd hc hn, ?_⟩ <;>
      simp [readScalar, hb, handleResultStatus, hc]
  · have hb : shouldProcessInterruptsBase result.toResultBase = false := by
      rcases not_and_or.mp hc with h | h <;>
        simp [shouldProcessInterruptsBase, h]
    refine ⟨?_, fun hcc => absurd hcc hc, fun _ => ?_, ?_⟩ <;>
      simp [readScalar, hb, handleResultStatus, hc]

/-- Witness for C3 (amended) at a concrete successful read with the
directive explicitly on. -/
theorem readScalar_propagates_iff_witness :
    (readScalar Int ⟨⟨AsynStatus.success, 0, 0, ProcessInterruptsValue.ON⟩, 7⟩
        ⟨0, 0, 0, 0, none, 0⟩).2.2.paramValue = some 7 ∧
    (readScalar Int ⟨⟨AsynStatus.success, 0, 0, ProcessInterruptsValue.ON⟩, 7⟩
        ⟨0, 0, 0, 0, none, 0⟩).2.2.callbacksFired ≠ 0 :=
  have hmain := readScalar_propagates_iff Int
    ⟨⟨AsynStatus.success, 0, 0, ProcessInterruptsValue.ON⟩, 7⟩
    ⟨0, 0, 0, 0, none, 0⟩
  ⟨hmain.2.1 ⟨rfl, rfl⟩, hmain.1.mpr ⟨rfl, rfl⟩⟩

/-- Counterexample for C3 as stated: a successful scalar read whose
directive is `DEFAULT` while the driver-wide auto-propagate option is
enabled — the directive "resolves to on" in the spec's sense (witnessed by
the write-path predicate, the only place `autoInterrupts` enters), yet the
read updates no parameter value and delivers nothing. -/
theorem readScalar_autoInterrupts_counterexample :
    shouldProcessInterruptsWrite ⟨true⟩
      ⟨AsynStatus.success, 0, 0, ProcessInterruptsValue.DEFAULT⟩ = true ∧
    (readScalar Int ⟨⟨AsynStatus.success, 0, 0, ProcessInterruptsValue.DEFAULT⟩, 7⟩
        ⟨0, 0, 0, 0, none, 0⟩).2.2.paramValue = none ∧
    (readScalar Int ⟨⟨AsynStatus.success, 0, 0, ProcessInterruptsValue.DEFAULT⟩, 7⟩
        ⟨0, 0, 0, 0, none, 0⟩).2.2.callbacksFired = 0 := by
  decide

/-- The `Handlers<epicsInt32>` map entry as far as `readInt32` consults
it: `readHandler` is `NULL` (`none`) or a registered handler, abstracted
by the `ScalarResult` it returns on this invocation. -/
structure Int32Handlers where
  readHandler : Option (ScalarResult Int)
deriving DecidableEq

/-- State consulted by `Driver::readInt32`: `m_params` reduced to the
fields used here (parameter index → function name), the
`m_Int32HandlerMap`, and the framework-visible parameter state. -/
structure Int32DriverState where
  params : List (Nat × String)
  int32HandlerMap : List (String × Int32Handlers)
  io : ScalarIoState Int
deriving DecidableEq

/-- Embeds `Driver::getReadHandler<T>` (autoparamDriver.cpp lines
351-361): the map entry's `readHandler`, or `NULL` when the function has
no entry. -/
def getReadHandler (m : List (String × Int32Handlers)) (function : String) :
    Option (ScalarResult Int) :=
  match alookup m function with
  | none => none
  | some e => e.readHandler

/-- Embeds `Driver::hasParam` (autoparamDriver.cpp lines 398-400). -/
def hasParam (st : Int32DriverState) (index : Nat) : Bool :=
  (alookup st.params index).isSome

/-- Embeds `Driver::hasReadHandler<T>` (autoparamDriver.cpp lines
402-404); `m_params.at(index)` is only reached after `hasParam` has
checked presence. -/
def hasReadHandler (st : Int32DriverState) (index : Nat) : Bool :=
  match alookup st.params index with
  | none => false
  | some function => (getReadHandler st.int32HandlerMap function).isSome

/-- Outcome of `Driver::readInt32`: either the call is handed to the base
class `asynPortDriver::readInt32` (external to this layer; it only reads
the cached parameter value), or it is handled by `readScalar`. -/
inductive ReadInt32Outcome where
  | delegatedToBase
  | handled (status : AsynStatus) (value : Int)
deriving DecidableEq

/-- Embeds `Driver::readInt32` (autoparamDriver.cpp lines 973-979): when
the parameter is unknown or its function has no int32 read handler, the
call is delegated to `asynPortDriver::readInt32`, which touches none of
this layer's state; otherwise `readScalar` runs. -/
def readInt32 (st : Int32DriverState) (index : Nat) :
    ReadInt32Outcome × Int32DriverState :=
  if hasParam st index = false ∨ hasReadHandler st index = false then
    (ReadInt32Outcome.delegatedToBase, st)
  else
    match alookup st.params index with
    | none => (ReadInt32Outcome.delegatedToBase, st)
    | some function =>
      match getReadHandler st.int32HandlerMap function with
      | none => (ReadInt32Outcome.delegatedToBase, st)
      | some result =>
        let r := readScalar Int result st.io
        (ReadInt32Outcome.handled r.1 r.2.1, { st with io := r.2.2 })

/-- C4 (amended): reading a channel whose declared type has no registered
read handler is handed off to the framework's built-in parameter read; no
handler runs, no status or alarm is produced by this layer, and the
channel's cached last-known value is untouched. -/
theorem readInt32_no_handler_delegates (st : Int32DriverState) (index : Nat)
    (h : hasParam st index = false ∨ hasReadHandler st index = false) :
    readInt32 st index = (ReadInt32Outcome.delegatedToBase, st) := by
  simp [readInt32, h]

/-- Concrete state for the C4 counterexample: one parameter bound to
function `F`, an empty int32 handler map, a cached value 42, and clear
alarms. -/
def stC4 : Int32DriverState :=
  ⟨[(0, "F")], [], ⟨0, 0, 0, 0, some 42, 0⟩⟩

/-- Counterexample for C4 as stated: with no int32 read handler for `F`,
`readInt32` delegates to the base class and leaves this layer's state
untouched — in particular the parameter's alarm fields stay clear instead
of becoming the claimed soft (16) / invalid (3) pair (only
`handleResultStatus` sets them, and it never runs on this path).  The
cached value 42 is indeed unaltered. -/
theorem readInt32_no_handler_counterexample :
    (readInt32 stC4 0).1 = ReadInt32Outcome.delegatedToBase ∧
    (readInt32 stC4 0).2 = stC4 ∧
    (readInt32 stC4 0).2.io.paramAlarmStatus ≠ 16 ∧
    (readInt32 stC4 0).2.io.paramAlarmSeverity ≠ 3 ∧
    (readInt32 stC4 0).2.io.paramValue = some 42 := by
  decide

/-- Witness for the amended C4 theorem at the concrete no-handler state. -/
theorem readInt32_no_handler_delegates_witness :
    readInt32 stC4 0 = (ReadInt32Outcome.delegatedToBase, stC4) :=
  readInt32_no_handler_delegates stC4 0 (by decide)

/-- Embeds `Autoparam::Array<T>` (autoparamHandler.h lines 146-187): the
referenced caller buffer (`m_data`), the logical size (`m_size`) and the
maximum size (`m_maxSize`). -/
structure ArrayModel (T : Type) where
  data : List T
  size : Nat
  maxSize : Nat
deriving DecidableEq

/-- The `Array(T *value, size_t maxSize)` constructor: both the size and
the maximum size are set to `maxSize` (`buffer` is the caller's buffer the
reference points into). -/
def mkArray (T : Type) (buffer : List T) (maxSize : Nat) : ArrayModel T :=
  ⟨buffer, maxSize, maxSize⟩

/-- The `Array::setSize` member: `m_size = std::min(m_maxSize, size)`. -/
def arraySetSize {T : Type} (a : ArrayModel T) (n : Nat) : ArrayModel T :=
  { a with size := min a.maxSize n }

/-- The `Array::fillFrom(T const *, size_t)` member: clamp the size, then
`std::copy` that many elements from the source into the buffer. -/
def arrayFillFrom {T : Type} (a : ArrayModel T) (src : List T) (n : Nat) :
    ArrayModel T :=
  let m := min a.maxSize n
  { a with size := m, data := src.take m ++ a.data.drop m }

/-- The `Array::fillFrom(std::vector const &)` member: `fillFrom` of the
vector's data and size. -/
def arrayFillFromVec {T : Type} (a : ArrayModel T) (src : List T) : ArrayModel T :=
  arrayFillFrom a src src.length

/-- Index the NUL terminator of `Octet::terminate` (autoparamHandler.h
lines 213-217) is written at: `m_data[m_size] = 0` runs whenever the size
is nonzero, so the written index equals the current size. -/
def octetTerminateIndex (o : ArrayModel Char) : Option Nat :=
  if 0 < o.size then some o.size else none

/-- Embeds `Octet::terminate`.  Note `List.set` silently drops a write at
an out-of-range index, while the C++ assignment happens regardless;
`octetTerminateIndex` exposes the index actually written for the bounds
analysis. -/
def octetTerminate (o : ArrayModel Char) : ArrayModel Char :=
  if 0 < o.size then { o with data := o.data.set o.size (Char.ofNat 0) } else o

/-- The `Octet::fillFrom(char const *, size_t)` member: `Array::fillFrom`
followed by `terminate`. -/
def octetFillFrom (o : ArrayModel Char) (src : List Char) (n : Nat) :
    ArrayModel Char :=
  octetTerminate (arrayFillFrom o src n)

/-- The `Octet::fillFrom(std::string const &)` member. -/
def octetFillFromString (o : ArrayModel Char) (s : List Char) : ArrayModel Char :=
  octetFillFrom o s s.length

/-- The size-mutating operations a handler can perform on an `Array<T>`
it receives (`writeTo` is `const` and is omitted). -/
inductive ArrayOp (T : Type) where
  | setSize (n : Nat)
  | fillFrom (src : List T) (n : Nat)
  | fillFromVec (src : List T)

/-- Applies one `Array` operation. -/
def applyArrayOp {T : Type} (a : ArrayModel T) : ArrayOp T → ArrayModel T
  | ArrayOp.setSize n => arraySetSize a n
  | ArrayOp.fillFrom src n => arrayFillFrom a src n
  | ArrayOp.fillFromVec src => arrayFillFromVec a src

/-- The operations available on an `Octet`. -/
inductive OctetOp where
  | setSize (n : Nat)
  | fillFrom (src : List Char) (n : Nat)
  | fillFromString (s : List Char)
  | terminate

/-- Applies one `Octet` operation. -/
def applyOctetOp (o : ArrayModel Char) : OctetOp → ArrayModel Char
  | OctetOp.setSize n => arraySetSize o n
  | OctetOp.fillFrom src n => octetFillFrom o src n
  | OctetOp.fillFromString s => octetFillFromString o s
  | OctetOp.terminate => octetTerminate o

theorem applyArrayOp_invariant {T : Type} (a : ArrayModel T) (op : ArrayOp T)
    (_h : a.size ≤ a.maxSize) :
    (applyArrayOp a op).size ≤ (applyArrayOp a op).maxSize ∧
    (applyArrayOp a op).maxSize = a.maxSize := by
  cases op with
  | setSize n => simp [applyArrayOp, arraySetSize]
  | fillFrom src n => simp [applyArrayOp, arrayFillFrom]
  | fillFromVec src => simp [applyArrayOp, arrayFillFromVec, arrayFillFrom]

theorem octetTerminate_size (o : ArrayModel Char) :
    (octetTerminate o).size = o.size ∧ (octetTerminate o).maxSize = o.maxSize := by
  rw [octetTerminate]
  by_cases h : 0 < o.size <;> simp [h]

theorem arrayFillFrom_size {T : Type} (a : ArrayModel T) (src : List T) (n : Nat) :
    (arrayFillFrom a src n).size = min a.maxSize n ∧
    (arrayFillFrom a src n).maxSize = a.maxSize := by
  simp [arrayFillFrom]

theorem applyOctetOp_invariant (o : ArrayModel Char) (op : OctetOp)
    (h : o.size ≤ o.maxSize) :
    (applyOctetOp o op).size ≤ (applyOctetOp o op).maxSize ∧
    (applyOctetOp o op).maxSize = o.maxSize := by
  cases op with
  | setSize n => simp [applyOctetOp, arraySetSize]
  | fillFrom src n =>
    have ht := octetTerminate_size (arrayFillFrom o src n)
    have hf := arrayFillFrom_size o src n
    rw [applyOctetOp, octetFillFrom, ht.1, ht.2, hf.1, hf.2]
    exact ⟨Nat.min_le_left _ _, rfl⟩
  | fillFromString s =>
    have ht := octetTerminate_size (arrayFillFrom o s s.length)
    have hf := arrayFillFrom_size o s s.length
    rw [applyOctetOp, octetFillFromString, octetFillFrom, ht.1, ht.2, hf.1, hf.2]
    exact ⟨Nat.min_le_left _ _, rfl⟩
  | terminate =>
    have ht := octetTerminate_size o
    rw [applyOctetOp, ht.1, ht.2]
    exact ⟨h, rfl⟩

/-- C9: the constructor sets the logical size equal to the maximum size,
and after any sequence of `Array` operations (and likewise any sequence of
`Octet` operations) the logical size never exceeds the maximum size, which
itself never changes. -/
theorem array_size_le_maxSize {T : Type} (buffer : List T) (cap : Nat)
    (ops : List (ArrayOp T)) (cbuf : List Char) (ccap : Nat)
    (oops : List OctetOp) :
    (mkArray T buffer cap).size = (mkArray T buffer cap).maxSize ∧
    (ops.foldl applyArrayOp (mkArray T buffer cap)).size ≤
      (ops.foldl applyArrayOp (mkArray T buffer cap)).maxSize ∧
    (oops.foldl applyOctetOp (mkArray Char cbuf ccap)).size ≤
      (oops.foldl applyOctetOp (mkArray Char cbuf ccap)).maxSize := by
  refine ⟨rfl, ?_, ?_⟩
  · have hgen : ∀ (l : List (ArrayOp T)) (a : ArrayModel T),
        a.size ≤ a.maxSize → (l.foldl applyArrayOp a).size ≤
          (l.foldl applyArrayOp a).maxSize := by
      intro l
      induction l with
      | nil => intro a h; simpa using h
      | cons op rest ih =>
        intro a h
        exact ih _ (applyArrayOp_invariant a op h).1
    exact hgen ops _ le_rfl
  · have hgen : ∀ (l : List OctetOp) (o : ArrayModel Char),
        o.size ≤ o.maxSize → (l.foldl applyOctetOp o).size ≤
          (l.foldl applyOctetOp o).maxSize := by
      intro l
      induction l with
      | nil => intro o h; simpa using h
      | cons op rest ih =>
        intro o h
        exact ih _ (applyOctetOp_invariant o op h).1
    exact hgen oops _ le_rfl

/-- A read handler that, like many real ones, fills the whole buffer and
leaves the logical size where the constructor put it (at `maxSize`). -/
def fullBufferOctetHandler : ArrayModel Char → ArrayModel Char × ResultBase :=
  fun o => (o, ⟨AsynStatus.success, 0, 0, ProcessInterruptsValue.DEFAULT⟩)

/-- Embeds `Driver::readOctetData` (autoparamDriver.cpp lines 940-956):
construct an `Octet` over the caller's buffer with size = `maxSize`, run
the driver's handler, record alarms, take `nRead` from the octet's size,
then call `terminate` ("the handler should have ensured termination, but
we can't be sure"), and propagate on the `ResultBase` overload of
`shouldProcessInterrupts`.  `setParamDispatch<Octet>` stores the C string,
i.e. the data up to the first NUL. -/
def readOctetData (handler : ArrayModel Char → ArrayModel Char × ResultBase)
    (buffer : List Char) (maxSize : Nat) (io : ScalarIoState (List Char)) :
    AsynStatus × Nat × ArrayModel Char × ScalarIoState (List Char) :=
  let arrayRef := mkArray Char buffer maxSize
  let hres := handler arrayRef
  let arr1 := hres.1
  let result := hres.2
  let io1 := handleResultStatus result io
  let nRead := arr1.size
  let arr2 := octetTerminate arr1
  if shouldProcessInterruptsBase result then
    (result.status, nRead, arr2,
      { io1 with
        paramValue := some (arr2.data.takeWhile (fun c => c ≠ Char.ofNat 0)),
        callbacksFired := io1.callbacksFired + 1 })
  else (result.status, nRead, arr2, io1)

/-- C10 fails on the code: in `readOctetData` with a caller buffer of
capacity 4 (`maxSize = 4`) and a handler that does not reduce the size,
`terminate` runs with size 4 and writes its NUL at index 4 — equal to
`maxSize` and to the buffer's length, hence one past the end of the
referenced buffer, contradicting the claimed bound `size < maxSize`. -/
theorem octetTerminate_out_of_bounds :
    (readOctetData fullBufferOctetHandler (List.replicate 4 'x') 4
        ⟨0, 0, 0, 0, none, 0⟩).2.1 = 4 ∧
    octetTerminateIndex
        ((fullBufferOctetHandler (mkArray Char (List.replicate 4 'x') 4)).1) =
      some 4 ∧
    (mkArray Char (List.replicate 4 'x') 4).maxSize = 4 ∧
    (List.replicate (4 : Nat) 'x').length = 4 ∧
    ¬ (4 : Nat) < 4 := by
  decide

end Autoparam
